import Mathlib

/-!
Verification of the multi-feature analysis orchestrator, face comparator,
report builder and temp-file sweep of `src/commands/rekognition.js`.

The JavaScript code is shallowly embedded: each remote Rekognition call is
represented by its outcome (`Except String α`, where `α` is the opaque
success payload type), the JS `results` object built by `runAnalyses` is an
association list from feature-name strings to tagged `FeatureResult`s, JS
numbers at the threshold call sites are rationals whose arithmetic is
rounded per IEEE-754 binary64 (`roundB64`, round to nearest, ties to
even), and the JSON report document is a small JSON AST.
-/

namespace Rekognition

/-- Tagged outcome stored in the `results` object of `runAnalyses`:
either the remote call's success payload (opaque shape `α`) or the failure
record `\x7b error: err.message \x7d` produced by the per-feature `.catch`. -/
inductive FeatureResult (α : Type) where
  | success (payload : α)
  | failure (errorMessage : String)
deriving DecidableEq, Repr

/-- The outcomes of the five per-feature remote Rekognition calls
(`detectLabels`, `detectText`, `detectFaces`, `detectModerationLabels`,
`recognizeCelebrities`) for one image: each either resolves with a payload
or rejects with an error message. -/
structure RemoteEnv (α : Type) where
  detectLabels : Except String α
  detectText : Except String α
  detectFaces : Except String α
  detectModerationLabels : Except String α
  recognizeCelebrities : Except String α

/-- `p.then(data => results.f = data).catch(err => results.f = \x7b error: err.message \x7d)`:
a resolved promise stores the payload, a rejected one stores the failure record. -/
def toFeatureResult {α : Type} : Except String α → FeatureResult α
  | .ok payload => .success payload
  | .error msg => .failure msg

/-- The five feature names `runAnalyses` tests with `features.includes(...)`,
in the order of its five `if` blocks. -/
def canonicalFeatures : List String :=
  ["labels", "text", "faces", "moderation", "celebrities"]

/-- The remote call `runAnalyses` dispatches for a given canonical feature
name (line 363-391 of rekognition.js: `labels ↦ detectLabels`, …,
`celebrities ↦ recognizeCelebrities`). -/
def remoteCall {α : Type} (env : RemoteEnv α) (f : String) : Except String α :=
  if f = "labels" then env.detectLabels
  else if f = "text" then env.detectText
  else if f = "faces" then env.detectFaces
  else if f = "moderation" then env.detectModerationLabels
  else env.recognizeCelebrities

/-- `runAnalyses(imageBuffer, features)` (rekognition.js lines 359-395).
For each of the five known feature names, if `features.includes(name)`, the
settled outcome of that feature's remote call is recorded under `name`
(success payload, or `\x7b error: message \x7d` from the local `.catch`);
`Promise.all` then joins every dispatched task, so the returned object is
exactly these entries. The image buffer itself never influences which
entries exist, so it is elided; the remote outcomes are the `env`. -/
def runAnalyses {α : Type} (env : RemoteEnv α) (features : List String) :
    List (String × FeatureResult α) :=
  (if features.contains "labels" then
    [("labels", toFeatureResult env.detectLabels)] else []) ++
  (if features.contains "text" then
    [("text", toFeatureResult env.detectText)] else []) ++
  (if features.contains "faces" then
    [("faces", toFeatureResult env.detectFaces)] else []) ++
  (if features.contains "moderation" then
    [("moderation", toFeatureResult env.detectModerationLabels)] else []) ++
  (if features.contains "celebrities" then
    [("celebrities", toFeatureResult env.recognizeCelebrities)] else [])

/-- `⌊log₂ n⌋` for `n ≥ 1` (and `0` for `n = 0`), by fuelled halving; the
fuel `n` itself always suffices. -/
def natLog2Aux : Nat → Nat → Nat
  | 0, _ => 0
  | fuel + 1, n => if 2 ≤ n then natLog2Aux fuel (n / 2) + 1 else 0

def natLog2 (n : Nat) : Nat := natLog2Aux n n

/-- `⌊log₂ x⌋` for a positive rational `x = a / b`: with `la = ⌊log₂ a⌋`
and `lb = ⌊log₂ b⌋`, the result is `la - lb` when `2 ^ (la - lb) ≤ x`
(that is, `b * 2 ^ la ≤ a * 2 ^ lb`), else `la - lb - 1`. -/
def ratLog2 (x : ℚ) : ℤ :=
  let a := x.num.toNat
  let b := x.den
  let la := natLog2 a
  let lb := natLog2 b
  if b * 2 ^ la ≤ a * 2 ^ lb then (la : ℤ) - lb else (la : ℤ) - lb - 1

/-- Multiplication of rationals computed through `Rat.divInt` so that the
kernel can evaluate it; equal to `a * b` (lemma `ratMul_eq`). -/
def ratMul (a b : ℚ) : ℚ := Rat.divInt (a.num * b.num) ((a.den : ℤ) * (b.den : ℤ))

/-- Division of rationals computed through `Rat.divInt`; equal to `a / b`
(lemma `ratDiv_eq`). -/
def ratDiv (a b : ℚ) : ℚ := Rat.divInt (a.num * (b.den : ℤ)) ((a.den : ℤ) * b.num)

/-- Negation of a rational computed through `Rat.divInt`; equal to `-a`
(lemma `ratNeg_eq`). -/
def ratNeg (a : ℚ) : ℚ := Rat.divInt (-a.num) (a.den : ℤ)

/-- Round a positive rational `m = num / den` to the nearest integer, ties
to even: with quotient `n` and remainder `r`, the fraction `r / den` is
compared against one half. -/
def roundHalfEvenPos (m : ℚ) : ℤ :=
  let n : ℤ := m.num / (m.den : ℤ)
  let r : ℤ := m.num % (m.den : ℤ)
  if 2 * r < (m.den : ℤ) then n
  else if (m.den : ℤ) < 2 * r then n + 1
  else if n % 2 = 0 then n else n + 1

/-- `n * 2 ^ e` as a rational, for an integer exponent `e`. -/
def scaleB (n : ℤ) (e : ℤ) : ℚ :=
  if 0 ≤ e then Rat.divInt (n * 2 ^ e.toNat) 1 else Rat.divInt n (2 ^ (-e).toNat)

/-- Round a positive rational to the nearest IEEE-754 binary64 value
(round to nearest, ties to even): the significand `x * 2 ^ (52 - e)`, a
value in `[2^52, 2^53)`, is rounded to an integer and scaled back.
The exponent is unbounded here, which agrees with binary64 on the normal
range all values of this development live in. -/
def roundB64Pos (x : ℚ) : ℚ :=
  let e := ratLog2 x
  scaleB (roundHalfEvenPos (ratMul x (scaleB 1 (52 - e)))) (e - 52)

/-- Round a rational to the nearest binary64 value (`0 ↦ 0`, negatives by
symmetry; a rational is zero iff its numerator is). -/
def roundB64 (x : ℚ) : ℚ :=
  if x.num = 0 then 0
  else if 0 < x.num then roundB64Pos x
  else ratNeg (roundB64Pos (ratNeg x))

/-- IEEE-754 binary64 division: JavaScript's `/` on doubles. -/
def flDiv (a b : ℚ) : ℚ := roundB64 (ratDiv a b)

/-- IEEE-754 binary64 multiplication: JavaScript's `*` on doubles. -/
def flMul (a b : ℚ) : ℚ := roundB64 (ratMul a b)

/-- Parameters of the `CompareFacesCommand` built by `compareFaces`
(rekognition.js lines 672-679); the image byte buffers are opaque. -/
structure CompareFacesCommandInput where
  SourceImage : String
  TargetImage : String
  SimilarityThreshold : ℚ
deriving DecidableEq, Repr

/-- `compareFaces(sourceBuffer, targetBuffer, threshold)` (rekognition.js
lines 672-679): sends `SimilarityThreshold: threshold * 100` to the remote
service; the JS engine evaluates `threshold * 100` in IEEE-754 binary64,
modelled by `flMul`. -/
def compareFaces (sourceBuffer targetBuffer : String) (threshold : ℚ) :
    CompareFacesCommandInput :=
  { SourceImage := sourceBuffer, TargetImage := targetBuffer,
    SimilarityThreshold := flMul threshold 100 }

/-- JavaScript `x || dflt` on a nullable number: both `null` and `0` are
falsy, so they yield the default. -/
def jsNumberOr (x : Option ℚ) (dflt : ℚ) : ℚ :=
  match x with
  | none => dflt
  | some v => if v = 0 then dflt else v

/-- `const similarityThreshold = interaction.options.getNumber('similarity') || 80;`
(rekognition.js line 213); `getNumber` yields `null` when the option is
absent. -/
def similarityThreshold (opt : Option ℚ) : ℚ := jsNumberOr opt 80

/-- The call `compareFaces(sourceResult.buffer, targetResult.buffer,
similarityThreshold / 100)` issued by `handleCompare` (rekognition.js lines
245-249); the division is a binary64 division, modelled by `flDiv`. -/
def handleCompareCall (opt : Option ℚ) (sourceBuffer targetBuffer : String) :
    CompareFacesCommandInput :=
  compareFaces sourceBuffer targetBuffer (flDiv (similarityThreshold opt) 100)

/-- A JavaScript error as inspected by `handleCompare`'s catch block: its
`code` and `message` properties. -/
structure JsError where
  code : String
  message : String
deriving DecidableEq, Repr

/-- Bool: the first character list starts with the second. -/
def charsStartWith : List Char → List Char → Bool
  | _, [] => true
  | [], _ :: _ => false
  | a :: as, b :: bs => a == b && charsStartWith as bs

/-- Bool: the second character list occurs contiguously in the first. -/
def charsContain : List Char → List Char → Bool
  | [], sub => sub.isEmpty
  | a :: as, sub => charsStartWith (a :: as) sub || charsContain as sub

/-- JavaScript `s.includes(sub)`: substring containment. -/
def stringIncludes (s sub : String) : Bool := charsContain s.toList sub.toList

/-- The reply content of the no-faces branch (rekognition.js lines 270-272).
The JS source spells the separator `'\\n'`, a literal backslash followed by
`n`, reproduced here. -/
def noFacesContent : String :=
  "👤 **No Faces Detected**\\nNo faces were found in one or both images. Please use images with clearly visible faces."

/-- How `handleCompare`'s catch block (rekognition.js lines 268-275)
disposes of an error raised by the comparison. -/
inductive CompareErrorDisposition where
  | noFacesReply (content : String)
  | rethrown (e : JsError)
deriving DecidableEq, Repr

/-- `if (error.code === 'InvalidParameterException' && error.message.includes('no face'))`:
edit the reply with the specific no-faces message; otherwise rethrow the
error to the generic handler. -/
def handleCompareCatch (e : JsError) : CompareErrorDisposition :=
  if e.code == "InvalidParameterException" && stringIncludes e.message "no face" then
    .noFacesReply noFacesContent
  else
    .rethrown e

/-- JSON values: the document written by `JSON.stringify`. `JSON.parse` of
the written text returns this same document, so serialize-then-parse is
modelled as the identity on the document. -/
inductive Json where
  | null
  | bool (b : Bool)
  | num (n : ℚ)
  | str (s : String)
  | arr (items : List Json)
  | obj (fields : List (String × Json))

/-- The `meta` object of the analysis report (rekognition.js lines 538-542). -/
structure ReportMeta where
  timestamp : String
  source : String

def metaToJson (m : ReportMeta) : Json :=
  .obj [("timestamp", .str m.timestamp), ("source", .str m.source),
        ("analysisType", .str "comprehensive_image_analysis")]

/-- JSON form of a stored feature result: a success payload is embedded
verbatim, a failure is the record `\x7b error: message \x7d`. -/
def featureResultToJson : FeatureResult Json → Json
  | .success p => p
  | .failure msg => .obj [("error", .str msg)]

/-- `createAnalysisReport(results, imageSource, ...)` (rekognition.js lines
536-549): the report document `\x7b meta, results \x7d`, embedding the
`results` object as-is. -/
def createAnalysisReport (results : List (String × FeatureResult Json)) (m : ReportMeta) :
    Json :=
  .obj [("meta", metaToJson m),
        ("results", .obj (results.map (fun kv => (kv.1, featureResultToJson kv.2))))]

/-- Field access on a parsed JSON object. -/
def getField (j : Json) (k : String) : Option Json :=
  match j with
  | .obj fields => fields.lookup k
  | _ => none

/-- Whether a JSON value has exactly the shape of a failure record
`\x7b error: string \x7d` — the shape from which a reader of the parsed
report recognises a failure entry. -/
def isErrorRecord : Json → Bool
  | .obj [("error", .str _)] => true
  | _ => false

/-- Reading one entry of the parsed `results` object back as a tagged
`FeatureResult`. -/
def decodeFeatureResult (j : Json) : FeatureResult Json :=
  match j with
  | .obj [("error", .str msg)] => .failure msg
  | _ => .success j

/-- Reading the parsed `results` object back as a result mapping. -/
def decodeResults (j : Json) : Option (List (String × FeatureResult Json)) :=
  match j with
  | .obj entries => some (entries.map (fun kv => (kv.1, decodeFeatureResult kv.2)))
  | _ => none

/-- A file of the temp directory: its name and modification time in
milliseconds since the epoch. -/
structure TempFile where
  name : String
  mtime : Int
deriving DecidableEq, Repr

/-- `cleanupTempFiles()` (rekognition.js lines 596-617): for each file of
the temp directory the age is `now - stats.mtime.getTime()`, and the file
is unlinked when `age > 60000`. The value is the list of files remaining
in the directory afterwards. -/
def cleanupTempFiles (now : Int) (files : List TempFile) : List TempFile :=
  files.filter (fun f => ! decide (now - f.mtime > 60000))

/-- A concrete remote environment for instantiating the theorems: the
`text` call rejects with message "boom", the other four resolve. -/
def envW : RemoteEnv Nat :=
  ⟨.ok 0, .error "boom", .ok 1, .ok 2, .ok 3⟩

/-- A concrete remote environment in which all five calls reject, each
with the message "fail " followed by its feature name. -/
def envAllFail : RemoteEnv Nat :=
  ⟨.error "fail labels", .error "fail text", .error "fail faces",
   .error "fail moderation", .error "fail celebrities"⟩

/-- `ratMul` is multiplication on ℚ. -/
lemma ratMul_eq (a b : ℚ) : ratMul a b = a * b := by
  rw [ratMul, Rat.mul_eq_mkRat, Rat.mkRat_eq_divInt]
  norm_cast

/-- `ratDiv` is division on ℚ. -/
lemma ratDiv_eq (a b : ℚ) : ratDiv a b = a / b := by
  rw [ratDiv, Rat.div_def']

/-- `ratNeg` is negation on ℚ. -/
lemma ratNeg_eq (a : ℚ) : ratNeg a = -a := by
  rw [ratNeg, ← Rat.neg_divInt, Rat.num_divInt_den]

lemma runAnalyses_eq_map_filter {α : Type} (env : RemoteEnv α) (features : List String) :
    runAnalyses env features =
      (canonicalFeatures.filter (fun c => features.contains c)).map
        (fun c => (c, toFeatureResult (remoteCall env c))) := by
  simp only [runAnalyses, canonicalFeatures, List.filter_cons, List.filter_nil, remoteCall]
  split_ifs <;> simp_all

lemma lookup_map_key {β : Type} (g : String → β) (l : List String) (f : String) :
    (l.map (fun c => (c, g c))).lookup f = if f ∈ l then some (g f) else none := by
  induction l with
  | nil => simp
  | cons c rest ih =>
    by_cases hfc : f = c
    · subst hfc
      simp [List.lookup]
    · have hbeq : (f == c) = false := beq_eq_false_iff_ne.mpr hfc
      simp [List.lookup, hbeq, hfc, ih]

/-- Keys of the object returned by `runAnalyses`: exactly the known feature
names that were requested, in the order of the five `if` blocks. -/
lemma runAnalyses_keys {α : Type} (env : RemoteEnv α) (features : List String) :
    (runAnalyses env features).map Prod.fst =
      canonicalFeatures.filter (fun c => features.contains c) := by
  rw [runAnalyses_eq_map_filter, List.map_map]
  exact List.map_id'' (fun x => rfl) _

/-- Looking up a canonical feature name in the object returned by
`runAnalyses`: present with the settled outcome iff it was requested. -/
lemma runAnalyses_lookup {α : Type} (env : RemoteEnv α) (features : List String)
    (f : String) (hf : f ∈ canonicalFeatures) :
    (runAnalyses env features).lookup f =
      if f ∈ features then some (toFeatureResult (remoteCall env f)) else none := by
  rw [runAnalyses_eq_map_filter, lookup_map_key]
  by_cases hmem : f ∈ features
  · simp [List.mem_filter, hf, hmem, List.contains, List.elem_iff]
  · simp [List.mem_filter, hmem, List.contains, List.elem_iff]

/-- C1: for every non-empty set of requested features drawn from the five
known names, the mapping returned by `runAnalyses` has exactly one entry
(success payload or failure record) for each requested feature — no
duplicates — and no entry for any feature not requested. -/
theorem runAnalyses_exact_entries {α : Type} (env : RemoteEnv α) (features : List String)
    (_hne : features ≠ []) (hsub : ∀ f ∈ features, f ∈ canonicalFeatures) :
    ((runAnalyses env features).map Prod.fst).Nodup ∧
    ∀ f, f ∈ (runAnalyses env features).map Prod.fst ↔ f ∈ features := by
  constructor
  · rw [runAnalyses_keys]
    exact (by decide : canonicalFeatures.Nodup).filter _
  · intro f
    rw [runAnalyses_keys]
    simp only [List.mem_filter, List.contains, List.elem_iff]
    exact ⟨fun h => h.2, fun h => ⟨hsub f h, h⟩⟩

/-- Witness for C1 at the feature set `\x7b labels, text \x7d`. -/
theorem runAnalyses_exact_entries_witness :
    ((runAnalyses envW ["labels", "text"]).map Prod.fst).Nodup ∧
    ∀ f, f ∈ (runAnalyses envW ["labels", "text"]).map Prod.fst ↔ f ∈ ["labels", "text"] :=
  runAnalyses_exact_entries envW ["labels", "text"] (by decide) (by decide)

/-- C2: failure isolation. If exactly one requested feature's remote call
fails and every other requested one succeeds, the mapping holds the single
failure as a failure record under that feature's name, and still holds the
success payloads of all the other requested features. -/
theorem runAnalyses_failure_isolation {α : Type} (env : RemoteEnv α)
    (features : List String) (f msg : String)
    (hf : f ∈ canonicalFeatures) (hreq : f ∈ features)
    (hfail : remoteCall env f = .error msg)
    (hok : ∀ g ∈ canonicalFeatures, g ∈ features → g ≠ f → ∃ p, remoteCall env g = .ok p) :
    (runAnalyses env features).lookup f = some (.failure msg) ∧
    ∀ g ∈ canonicalFeatures, g ∈ features → g ≠ f →
      ∃ p, remoteCall env g = .ok p ∧
        (runAnalyses env features).lookup g = some (.success p) := by
  constructor
  · rw [runAnalyses_lookup env features f hf]
    simp [hreq, hfail, toFeatureResult]
  · intro g hg hgreq hgf
    obtain ⟨p, hp⟩ := hok g hg hgreq hgf
    refine ⟨p, hp, ?_⟩
    rw [runAnalyses_lookup env features g hg]
    simp [hgreq, hp, toFeatureResult]

/-- Witness for C2: in `envW` only `text` fails, and the requested set is
`\x7b labels, text, faces \x7d`. -/
theorem runAnalyses_failure_isolation_witness :
    (runAnalyses envW ["labels", "text", "faces"]).lookup "text" =
      some (.failure "boom") ∧
    ∀ g ∈ canonicalFeatures, g ∈ ["labels", "text", "faces"] → g ≠ "text" →
      ∃ p, remoteCall envW g = .ok p ∧
        (runAnalyses envW ["labels", "text", "faces"]).lookup g = some (.success p) :=
  runAnalyses_failure_isolation envW ["labels", "text", "faces"] "text" "boom"
    (by decide) (by decide) rfl
    (by
      intro g hg hgreq hgf
      simp only [canonicalFeatures, List.mem_cons, List.not_mem_nil, or_false] at hg
      rcases hg with rfl | rfl | rfl | rfl | rfl
      · exact ⟨0, rfl⟩
      · exact absurd rfl hgf
      · exact ⟨1, rfl⟩
      · exact absurd hgreq (by decide)
      · exact absurd hgreq (by decide))

/-- C3: if every requested feature's remote call fails, `runAnalyses`
still returns normally (it is a total function of the remote outcomes),
and its mapping carries exactly the requested features as keys, each bound
to a failure record carrying that call's error message. -/
theorem runAnalyses_all_failures {α : Type} (env : RemoteEnv α)
    (features : List String) (msg : String → String)
    (_hne : features ≠ []) (hsub : ∀ f ∈ features, f ∈ canonicalFeatures)
    (hfail : ∀ g ∈ canonicalFeatures, g ∈ features → remoteCall env g = .error (msg g)) :
    (∀ f, f ∈ (runAnalyses env features).map Prod.fst ↔ f ∈ features) ∧
    ∀ g ∈ canonicalFeatures, g ∈ features →
      (runAnalyses env features).lookup g = some (.failure (msg g)) := by
  constructor
  · intro f
    rw [runAnalyses_keys]
    simp only [List.mem_filter, List.contains, List.elem_iff]
    exact ⟨fun h => h.2, fun h => ⟨hsub f h, h⟩⟩
  · intro g hg hreq
    rw [runAnalyses_lookup env features g hg]
    simp [hreq, hfail g hg hreq, toFeatureResult]

/-- Witness for C3: all five features requested against `envAllFail`. -/
theorem runAnalyses_all_failures_witness :
    (∀ f, f ∈ (runAnalyses envAllFail canonicalFeatures).map Prod.fst ↔
        f ∈ canonicalFeatures) ∧
    ∀ g ∈ canonicalFeatures, g ∈ canonicalFeatures →
      (runAnalyses envAllFail canonicalFeatures).lookup g =
        some (.failure ("fail " ++ g)) :=
  runAnalyses_all_failures envAllFail canonicalFeatures (fun g => "fail " ++ g)
    (by decide) (fun _ h => h)
    (by
      intro g hg hreq
      simp only [canonicalFeatures, List.mem_cons, List.not_mem_nil, or_false] at hg
      rcases hg with rfl | rfl | rfl | rfl | rfl <;> rfl)

/-- C7 counterexample: called with the empty feature set, `runAnalyses`
does not signal a misuse error — it returns normally, with the empty
mapping. -/
theorem runAnalyses_empty_no_error :
    runAnalyses (⟨.ok 0, .ok 0, .ok 0, .ok 0, .ok 0⟩ : RemoteEnv Nat) [] = [] := by
  rfl

/-- C7 amended: `runAnalyses` never signals an error at all. On the empty
feature set it returns the empty mapping, and for any remote outcomes it
returns normally, with keys independent of those outcomes — so no remote
failure can make it fail. -/
theorem runAnalyses_total_behavior {α : Type} (env : RemoteEnv α) (features : List String) :
    runAnalyses env [] = [] ∧
    (runAnalyses env features).map Prod.fst =
      canonicalFeatures.filter (fun c => features.contains c) := by
  exact ⟨rfl, runAnalyses_keys env features⟩

/-- C10: if every requested name lies outside the five known features,
`runAnalyses` returns normally with the empty mapping — no error, and no
entry for any unknown name. -/
theorem runAnalyses_unknown_features {α : Type} (env : RemoteEnv α) (features : List String)
    (h : ∀ f ∈ features, f ∉ canonicalFeatures) :
    runAnalyses env features = [] := by
  rw [runAnalyses_eq_map_filter]
  have hnil : canonicalFeatures.filter (fun c => features.contains c) = [] := by
    rw [List.filter_eq_nil_iff]
    intro c hc
    simp only [List.contains, List.elem_iff]
    exact fun hcf => h c hcf hc
  rw [hnil]
  rfl

/-- Witness for C10 at the unknown feature list `["bogus", "ocr"]`. -/
theorem runAnalyses_unknown_features_witness :
    runAnalyses envW ["bogus", "ocr"] = [] :=
  runAnalyses_unknown_features envW ["bogus", "ocr"] (by decide)

/-- C4: an error whose `code` is `InvalidParameterException` and whose
`message` mentions "no face" — the shape in which the remote collaborator
signals that no face was found in either image — is classified by
`handleCompare`'s catch block as the distinct no-faces reply, carrying its
specific user-facing message, instead of being rethrown as a generic
failure. -/
theorem handleCompare_noFace_classified (e : JsError)
    (hcode : e.code = "InvalidParameterException")
    (hmsg : stringIncludes e.message "no face" = true) :
    handleCompareCatch e = .noFacesReply noFacesContent := by
  unfold handleCompareCatch
  rw [hcode]
  simp [hmsg]

/-- Witness for C4 at a concrete no-face error. -/
theorem handleCompare_noFace_classified_witness :
    handleCompareCatch
        ⟨"InvalidParameterException", "There are no faces in the source image"⟩ =
      .noFacesReply noFacesContent :=
  handleCompare_noFace_classified _ rfl (by decide)

/-- C5 counterexample: supplying 7 at the comparator call site, the
binary64 round trip is inexact. The program computes
`fl(fl(7/100) * 100) = 7881299347898369 / 2^50 = 7.000000000000001`, so
the remote call does not receive 7. -/
theorem compareFaces_threshold_counterexample :
    (handleCompareCall (some 7) "s" "t").SimilarityThreshold =
      7881299347898369 / 1125899906842624 ∧
    (handleCompareCall (some 7) "s" "t").SimilarityThreshold ≠ 7 := by
  constructor
  · rw [show (7881299347898369 : ℚ) / 1125899906842624 =
          Rat.divInt 7881299347898369 1125899906842624 from by
        rw [Rat.divInt_eq_div]; norm_num]
    decide
  · decide

/-- C5 amended: a similarity percentage `p` supplied at the comparator
call site is normalized to the binary64 quotient `fl(p/100)` before
`compareFaces` is invoked, and `compareFaces` sends the binary64 product
`fl(fl(p/100) * 100)` — in general only an approximation of `p` — as the
remote call's `SimilarityThreshold`; for the spec's instance 75 both
roundings are exact, so 75 becomes exactly 0.75 internally and exactly 75
at the remote call. -/
theorem compareFaces_threshold_roundtrip (src tgt : String) (p : ℚ) :
    (handleCompareCall (some p) src tgt).SimilarityThreshold =
      flMul (flDiv (similarityThreshold (some p)) 100) 100 ∧
    flDiv (75 : ℚ) 100 = 3 / 4 ∧
    (compareFaces src tgt (flDiv (75 : ℚ) 100)).SimilarityThreshold = 75 := by
  refine ⟨rfl, ?_, ?_⟩
  · rw [show (3 : ℚ) / 4 = Rat.divInt 3 4 from by rw [Rat.divInt_eq_div]; norm_num]
    decide
  · show flMul (flDiv (75 : ℚ) 100) 100 = 75
    decide

lemma decode_featureResultToJson (v : FeatureResult Json)
    (hv : ∀ p, v = .success p → isErrorRecord p = false) :
    decodeFeatureResult (featureResultToJson v) = v := by
  cases v with
  | failure msg => rfl
  | success p =>
    have hp := hv p rfl
    show decodeFeatureResult p = .success p
    unfold decodeFeatureResult
    split
    · simp [isErrorRecord] at hp
    · rfl

lemma decode_encode_entries (results : List (String × FeatureResult Json))
    (hok : ∀ k p, (k, FeatureResult.success p) ∈ results → isErrorRecord p = false) :
    (results.map (fun kv => (kv.1, featureResultToJson kv.2))).map
        (fun kv => (kv.1, decodeFeatureResult kv.2)) = results := by
  induction results with
  | nil => rfl
  | cons kv rest ih =>
    simp only [List.map_cons, List.cons.injEq]
    constructor
    · obtain ⟨k, v⟩ := kv
      have hd : decodeFeatureResult (featureResultToJson v) = v :=
        decode_featureResultToJson v
          (fun p hp => hok k p (by rw [← hp]; exact List.mem_cons_self _ _))
      simpa using hd
    · exact ih (fun k p hkp => hok k p (List.mem_cons_of_mem _ hkp))

/-- C6: report round trip. The analysis report built from a result mapping
and metadata, once serialized and parsed back, has a `results` object that
reads back as exactly the input mapping: the same feature keys, the same
success/failure tagging, failure entries still carrying their error
message — nothing dropped, summarized or truncated. (The hypothesis rules
out a success payload that is itself literally shaped like a failure
record, the one shape on which the untagged JSON could not be read back.) -/
theorem createAnalysisReport_roundtrip (results : List (String × FeatureResult Json))
    (m : ReportMeta)
    (hok : ∀ k p, (k, FeatureResult.success p) ∈ results → isErrorRecord p = false) :
    ∃ rj, getField (createAnalysisReport results m) "results" = some rj ∧
      decodeResults rj = some results := by
  refine ⟨.obj (results.map (fun kv => (kv.1, featureResultToJson kv.2))), ?_, ?_⟩
  · simp [createAnalysisReport, getField, List.lookup,
      show (("results" : String) == "meta") = false by decide]
  · simp only [decodeResults, Option.some.injEq]
    exact decode_encode_entries results hok

/-- A concrete result mapping for the report round trip: one success entry
with an AWS-shaped payload and one failure entry. -/
def demoResults : List (String × FeatureResult Json) :=
  [("labels", .success (.obj [("Labels", .arr [])])),
   ("text", .failure "boom")]

/-- Concrete report metadata. -/
def demoMeta : ReportMeta :=
  ⟨"2026-10-11T00:00:00.000Z", "https://example.com/cat.jpg"⟩

/-- Witness for C6 at `demoResults` and `demoMeta`. -/
theorem createAnalysisReport_roundtrip_witness :
    ∃ rj, getField (createAnalysisReport demoResults demoMeta) "results" = some rj ∧
      decodeResults rj = some demoResults :=
  createAnalysisReport_roundtrip demoResults demoMeta
    (by
      intro k p h
      simp only [demoResults, List.mem_cons, List.not_mem_nil, or_false,
        Prod.mk.injEq] at h
      rcases h with ⟨-, h2⟩ | ⟨-, h2⟩
      · injection h2 with h3
        rw [h3]
        rfl
      · exact FeatureResult.noConfusion h2)

/-- C8: the temp-file sweep removes precisely the files whose age
`now - mtime` exceeds the 60000 ms threshold: a file of the directory is
still there after the pass iff its age is within the threshold. -/
theorem cleanupTempFiles_age_threshold (now : Int) (files : List TempFile)
    (f : TempFile) (hf : f ∈ files) :
    f ∈ cleanupTempFiles now files ↔ now - f.mtime ≤ 60000 := by
  unfold cleanupTempFiles
  rw [List.mem_filter]
  simp [hf, not_lt]

/-- Witness for C8: a file written 1000 ms ago survives a sweep. -/
theorem cleanupTempFiles_age_threshold_witness :
    ((⟨"fresh.json", 99000⟩ : TempFile) ∈
        cleanupTempFiles 100000 [⟨"stale.json", 0⟩, ⟨"fresh.json", 99000⟩] ↔
      (100000 : Int) - (⟨"fresh.json", 99000⟩ : TempFile).mtime ≤ 60000) :=
  cleanupTempFiles_age_threshold 100000 [⟨"stale.json", 0⟩, ⟨"fresh.json", 99000⟩]
    ⟨"fresh.json", 99000⟩ (by decide)

/-- C9: a supplied similarity option of exactly 0 is falsy in JavaScript,
so `|| 80` replaces it with the default: the comparison runs with
threshold 80 and the remote call receives `SimilarityThreshold` 80, not 0. -/
theorem similarity_zero_uses_default :
    similarityThreshold (some 0) = 80 ∧
    (handleCompareCall (some 0) "src" "tgt").SimilarityThreshold = 80 := by
  constructor
  · rfl
  · decide

end Rekognition
